import Mathlib

/-!
Verification of the ComfyUI RunPod dashboard core against its design notes:
the log tail / ring-buffer / broadcast pipeline
(`workers/tailLogsFile.py`, `constants/websocketEventManager.py`,
`utils/getCurrentLogs.py`, `utils/formatLogLine.py`, `log_viewer.py`)
and the model-download orchestrator (`download_models.py`).

Each Python function the properties mention is shallowly embedded as a Lean
definition over explicit state (the ring buffer is a `List String`, the
filesystem a list of present filenames, the subscriber registry a list of
subscriber records); nondeterministic environment inputs (wall-clock time,
network results, process exit codes) are passed in as parameters.
-/

namespace ComfyDash

/-! ## Ring log buffer (`workers/tailLogsFile.py`, tail loop body)

The Python loop body, for one line yielded by `follow`:

    stripped_line = line.strip()
    if stripped_line:
        log_buffer.append(stripped_line)
        if len(log_buffer) > 500:
            log_buffer.pop(0)
    prev_line = stripped_line

Note that the guard tests only non-emptiness; `prev_line` is assigned but
never read, so no duplicate check happens on append. -/

/-- One tail-loop buffer update for an already-stripped line: append when the
line is non-empty, then evict the oldest entry (`pop(0)`) when the length
exceeds 500. -/
def tailAppend (buf : List String) (line : String) : List String :=
  if line = "" then buf
  else
    let buf1 := buf ++ [line]
    if buf1.length > 500 then buf1.tail else buf1

/-- Appending never takes a buffer of length at most 500 above 500. -/
theorem tailAppend_length_le (buf : List String) (line : String)
    (h : buf.length ≤ 500) : (tailAppend buf line).length ≤ 500 := by
  simp only [tailAppend]
  split_ifs with h1 h2
  · exact h
  · simp only [List.length_tail, List.length_append, List.length_singleton]
    omega
  · simp only [List.length_append, List.length_singleton] at h2 ⊢
    omega

/-- Folding the tail-loop update over any line sequence preserves the bound. -/
theorem tailAppend_foldl_length_le (lines : List String) (buf : List String)
    (h : buf.length ≤ 500) : (lines.foldl tailAppend buf).length ≤ 500 := by
  induction lines generalizing buf with
  | nil => exact h
  | cons l rest ih => exact ih _ (tailAppend_length_le _ _ h)

/-- A full buffer evicts its oldest entry on a non-empty append. -/
theorem tailAppend_evicts (buf : List String) (line : String)
    (h : buf.length = 500) (hl : line ≠ "") :
    tailAppend buf line = buf.tail ++ [line] := by
  simp only [tailAppend, if_neg hl]
  have hgt : (buf ++ [line]).length > 500 := by
    simp [h]
  rw [if_pos hgt]
  cases buf with
  | nil => simp at h
  | cons a t => simp

/-- C2: the claim says an append equal to the immediately preceding entry is
skipped, leaving length and contents unchanged. The loop guard only tests
non-emptiness (`if stripped_line:`) and `prev_line` is never read, so the
code appends the consecutive duplicate: starting from buffer `["a"]` whose
last entry is `"a"`, appending `"a"` yields `["a", "a"]` of length 2. -/
theorem tailAppend_keeps_consecutive_duplicate :
    tailAppend ["a"] "a" = ["a", "a"] ∧ (tailAppend ["a"] "a").length = 2 := by
  constructor <;> rfl

/-- C3: the ring buffer never exceeds 500 entries: any sequence of tail-loop
appends starting from the empty buffer stays within 500; a single append
preserves the bound; and when the buffer is full and the line non-empty the
oldest entry is evicted (`pop(0)`), keeping the remaining entries in
insertion order followed by the new line. -/
theorem ring_buffer_bound_and_fifo (lines buf : List String) (line : String) :
    (lines.foldl tailAppend []).length ≤ 500 ∧
    (buf.length ≤ 500 → (tailAppend buf line).length ≤ 500) ∧
    (buf.length = 500 → line ≠ "" → tailAppend buf line = buf.tail ++ [line]) :=
  ⟨tailAppend_foldl_length_le lines [] (by simp),
   fun h => tailAppend_length_le buf line h,
   fun h hl => tailAppend_evicts buf line h hl⟩

/-- Witness for C3 at a concrete full buffer. -/
theorem ring_buffer_bound_and_fifo_witness :
    ((["x", "y"] : List String).foldl tailAppend []).length ≤ 500 ∧
    (tailAppend (List.replicate 500 "x") "y").length ≤ 500 ∧
    tailAppend (List.replicate 500 "x") "y" = (List.replicate 500 "x").tail ++ ["y"] := by
  have h := ring_buffer_bound_and_fifo ["x", "y"] (List.replicate 500 "x") "y"
  have hlen : (List.replicate 500 "x").length = 500 := List.length_replicate 500 "x"
  exact ⟨h.1, h.2.1 (le_of_eq hlen), h.2.2 hlen (by decide)⟩

/-! ## Tail cursor (`workers/tailLogsFile.py`, `follow`)

    file_size = os.path.getsize(file_path)
    if file_size < current_position:
        current_position = 0
    file.seek(current_position)
    new_lines = file.readlines()
    if new_lines:
        current_position = file.tell()
-/

/-- One polling step of `follow`: compare the file size with the stored
cursor, reset the cursor to 0 on truncation, read from the cursor to EOF,
and advance the cursor to the end-of-read position when anything was read.
The file is modelled by its character content; the result is the new cursor
position paired with the characters read. -/
def followStep (content : List Char) (pos : Nat) : Nat × List Char :=
  let p := if content.length < pos then 0 else pos
  let newLines := content.drop p
  if newLines.isEmpty then (p, newLines) else (content.length, newLines)

/-- C6: when the file size is below the stored offset, the cursor resets to 0
and the step reads the whole new content from the beginning; otherwise the
read begins at the stored offset and the cursor advances to the
end-of-read position. -/
theorem follow_truncation_reset (content : List Char) (pos : Nat) :
    (content.length < pos → (followStep content pos).2 = content) ∧
    (pos ≤ content.length →
      (followStep content pos).2 = content.drop pos ∧
      (followStep content pos).1 = content.length) := by
  constructor
  · intro h
    simp only [followStep]
    rw [if_pos h]
    simp only [List.drop_zero]
    by_cases hc : content.isEmpty = true
    · rw [if_pos hc]
    · rw [if_neg hc]
  · intro h
    have hnot : ¬ content.length < pos := not_lt.mpr h
    simp only [followStep]
    rw [if_neg hnot]
    by_cases hd : (content.drop pos).isEmpty = true
    · rw [if_pos hd]
      refine ⟨rfl, ?_⟩
      rw [List.isEmpty_iff, List.drop_eq_nil_iff] at hd
      exact le_antisymm h hd
    · rw [if_neg hd]
      exact ⟨rfl, rfl⟩

/-- Witness for C6: a truncated file (size 1 below cursor 3) is reread from
the start, and an untruncated file is read from the stored offset. -/
theorem follow_truncation_reset_witness :
    (followStep [Char.ofNat 97] 3).2 = [Char.ofNat 97] ∧
    ((followStep [Char.ofNat 97, Char.ofNat 98] 1).2 =
        ([Char.ofNat 97, Char.ofNat 98] : List Char).drop 1 ∧
      (followStep [Char.ofNat 97, Char.ofNat 98] 1).1 =
        ([Char.ofNat 97, Char.ofNat 98] : List Char).length) :=
  ⟨(follow_truncation_reset [Char.ofNat 97] 3).1 (by decide),
   (follow_truncation_reset [Char.ofNat 97, Char.ofNat 98] 1).2 (by decide)⟩

/-! ## Log tailer startup (`workers/tailLogsFile.py`, lines 12–16)

    if not os.path.exists(log_file):
        os.makedirs("/","workspace","logs", exist_ok=True)
        open(log_file, "a").close()
-/

/-- Parameter names of `os.makedirs(name, mode=0o777, exist_ok=False)`, in
positional order. -/
def makedirsParams : List String := ["name", "mode", "exist_ok"]

/-- Python call binding: `nPositional` positional arguments bind the leading
parameters in order; the call raises `TypeError` when a keyword argument
names a parameter already bound positionally, or when there are more
positional arguments than parameters. Returns `true` iff binding succeeds. -/
def pyCallBinds (params : List String) (nPositional : Nat) (keywords : List String) : Bool :=
  decide (nPositional ≤ params.length) &&
    keywords.all (fun k => !(params.take nPositional).contains k)

/-- Startup of `tail_log_file` when the log file is missing: the code calls
`os.makedirs("/", "workspace", "logs", exist_ok=True)` — three positional
arguments plus the keyword `exist_ok` — before creating the file; when the
file exists the creation block is skipped and following starts. -/
def tailStartup (fileExists : Bool) : Except String Unit :=
  if fileExists then .ok ()
  else if pyCallBinds makedirsParams 3 ["exist_ok"] then .ok ()
  else .error "TypeError: makedirs() got multiple values for argument exist_ok"

/-- C7: the claim says a missing log file is created (with its parent
directories) and following begins at offset 0. The `os.makedirs` call passes
the three path components as separate positional arguments — binding
`name:="/"`, `mode:="workspace"`, `exist_ok:="logs"` — so the keyword
`exist_ok=True` re-binds an already-bound parameter and the call raises
`TypeError` before any directory or file is created; the startup only
succeeds when the file already exists. -/
theorem tail_startup_missing_file_raises :
    tailStartup false =
      .error "TypeError: makedirs() got multiple values for argument exist_ok" ∧
    tailStartup true = .ok () :=
  ⟨rfl, rfl⟩

/-! ## Subscriber registry (`constants/websocketEventManager.py`)

    if websocket_connections:
        disconnected = []
        for websocket in websocket_connections:
            try:
                await websocket.send_text(json.dumps(message))
            except:
                disconnected.append(websocket)
        for ws in disconnected:
            websocket_connections.remove(ws)
-/

/-- A connected websocket client; `sendFails` records whether its
`send_text` raises during the broadcast under study (closed channel or
write error). -/
structure Subscriber where
  id : Nat
  sendFails : Bool
deriving DecidableEq

/-- Python `list.remove`: delete the first element equal to the argument. -/
def removeWs (a : Subscriber) : List Subscriber → List Subscriber
  | [] => []
  | b :: rest => if b = a then rest else b :: removeWs a rest

/-- The identities `broadcast_to_websockets` attempts a `send_text` to, in
loop order: one attempt per registered connection (none when the registry is
empty, where the guard skips the loop). -/
def broadcastAttempts (conns : List Subscriber) : List Nat :=
  if conns.isEmpty then [] else conns.map Subscriber.id

/-- The registry after `broadcast_to_websockets`: the loop collects every
connection whose send raised into `disconnected`, then removes each of them
from the registry. -/
def broadcast_to_websockets (conns : List Subscriber) : List Subscriber :=
  if conns.isEmpty then conns
  else (conns.filter Subscriber.sendFails).foldl (fun acc ws => removeWs ws acc) conns

theorem removeWs_cons_self (a : Subscriber) (l : List Subscriber) :
    removeWs a (a :: l) = l := by
  simp [removeWs]

theorem removeWs_cons_of_ne (a b : Subscriber) (l : List Subscriber)
    (h : b ≠ a) : removeWs a (b :: l) = b :: removeWs a l := by
  simp [removeWs, h]

/-- Removing a batch of elements none of which equals `a` leaves a leading
`a` untouched. -/
theorem foldl_removeWs_cons (ds : List Subscriber) (a : Subscriber)
    (l : List Subscriber) (ha : a ∉ ds) :
    ds.foldl (fun acc ws => removeWs ws acc) (a :: l) =
      a :: ds.foldl (fun acc ws => removeWs ws acc) l := by
  induction ds generalizing l with
  | nil => rfl
  | cons x ds ih =>
    have hxa : a ≠ x := fun h => ha (h ▸ List.mem_cons_self x ds)
    have hha : a ∉ ds := fun h => ha (List.mem_cons_of_mem x h)
    simp only [List.foldl_cons, removeWs_cons_of_ne x a l hxa]
    exact ih (removeWs x l) hha

/-- Removing, one by one, exactly the elements of a duplicate-free list that
satisfy `p` leaves the elements that do not satisfy `p`, in order. -/
theorem foldl_removeWs_filter (l : List Subscriber) (p : Subscriber → Bool)
    (hnd : l.Nodup) :
    (l.filter p).foldl (fun acc ws => removeWs ws acc) l =
      l.filter (fun s => !(p s)) := by
  induction l with
  | nil => rfl
  | cons a t ih =>
    have hat : a ∉ t := (List.nodup_cons.mp hnd).1
    have hnt : t.Nodup := (List.nodup_cons.mp hnd).2
    by_cases hp : p a
    · simp [List.filter_cons, hp, removeWs_cons_self, ih hnt]
    · have hpa : p a = false := by simpa using hp
      have hnot : a ∉ t.filter p := fun h => hat (List.mem_of_mem_filter h)
      simp [List.filter_cons, hpa, foldl_removeWs_cons (t.filter p) a t hnot,
        ih hnt]

/-- C1: over any registry of distinct connections, a broadcast attempts one
send per connection registered at its start (each identity occurs exactly
once in the attempt list), and afterwards exactly the connections whose send
failed are gone: the registry equals the original list restricted to the
non-failing connections, in order. -/
theorem broadcast_reaches_all_and_drops_failed (conns : List Subscriber)
    (hnd : (conns.map Subscriber.id).Nodup) :
    (∀ s ∈ conns, (broadcastAttempts conns).count s.id = 1) ∧
    broadcast_to_websockets conns =
      conns.filter (fun s => !(s.sendFails)) := by
  constructor
  · intro s hs
    have hne : conns.isEmpty = false := by
      cases conns with
      | nil => cases hs
      | cons a t => rfl
    rw [broadcastAttempts, hne]
    simp only [Bool.false_eq_true, if_false]
    exact List.count_eq_one_of_mem hnd (List.mem_map_of_mem Subscriber.id hs)
  · have hnd2 : conns.Nodup := hnd.of_map
    cases hc : conns.isEmpty with
    | true =>
      rw [List.isEmpty_iff] at hc
      subst hc
      rfl
    | false =>
      rw [broadcast_to_websockets, hc]
      simp only [Bool.false_eq_true, if_false]
      exact foldl_removeWs_filter conns Subscriber.sendFails hnd2

/-- Witness for C1: two live connections and one failing connection; the
broadcast attempts all three sends and the registry keeps exactly the two
live ones. -/
theorem broadcast_reaches_all_and_drops_failed_witness :
    (∀ s ∈ [Subscriber.mk 1 false, Subscriber.mk 2 true, Subscriber.mk 3 false],
      (broadcastAttempts
        [Subscriber.mk 1 false, Subscriber.mk 2 true, Subscriber.mk 3 false]).count s.id = 1) ∧
    broadcast_to_websockets
        [Subscriber.mk 1 false, Subscriber.mk 2 true, Subscriber.mk 3 false] =
      [Subscriber.mk 1 false, Subscriber.mk 2 true, Subscriber.mk 3 false].filter
        (fun s => !(s.sendFails)) :=
  broadcast_reaches_all_and_drops_failed
    [Subscriber.mk 1 false, Subscriber.mk 2 true, Subscriber.mk 3 false]
    (by decide)

/-! ## Download orchestrator (`download_models.py`)

Job planning in `download_category_models`:

    for url in urls:
        filename = url.split("/")[-1]
        if (category_path / filename).exists() and not force_download:
            continue
        task = download_file(url, category_path, download_semaphore)
        download_tasks.append((task, filename))

Strings are modelled as character lists so every operation evaluates in the
kernel. -/

/-- Python `url.split("/")`: cut the character sequence at every slash. -/
def splitSlash : List Char → List (List Char)
  | [] => [[]]
  | c :: rest =>
    let r := splitSlash rest
    if c = Char.ofNat 47 then [] :: r
    else (c :: r.headD []) :: r.tail

/-- `url.split("/")[-1]`: the filename derived from the URL's final path
segment. -/
def derivedFilename (url : List Char) : List Char := (splitSlash url).getLastD []

/-- The planning loop of `download_category_models` for one category:
`fsPresent` lists the filenames already in the category's destination
directory; a URL whose derived filename is present is skipped when `force`
is false, every other URL spawns a fetch job. Returns the URLs a job is
spawned for, in order. -/
def spawnedJobs (fsPresent : List (List Char)) (urls : List (List Char))
    (force : Bool) : List (List Char) :=
  urls.filterMap fun url =>
    if derivedFilename url ∈ fsPresent ∧ force = false then none else some url

/-- The category directory after a completed run in which every spawned
fetch succeeded: the files already present plus the derived filename of
every spawned job (aria2c is invoked with `-d dir -o filename`). -/
def afterCompletedRun (fsPresent : List (List Char)) (urls : List (List Char)) :
    List (List Char) :=
  fsPresent ++ (spawnedJobs fsPresent urls false).map derivedFilename

theorem mem_spawnedJobs_of_absent (fsPresent urls : List (List Char))
    (url : List Char) (hu : url ∈ urls)
    (hf : derivedFilename url ∉ fsPresent) :
    url ∈ spawnedJobs fsPresent urls false := by
  unfold spawnedJobs
  exact List.mem_filterMap.mpr ⟨url, hu, by rw [if_neg (fun hc => hf hc.1)]⟩

/-- C4: re-running the planner with `force=false` over the directory state
left by a completed first run spawns no job at all, and in any single run a
URL whose derived filename is already present is skipped (its job is not
spawned). -/
theorem second_run_spawns_nothing (fsPresent urls : List (List Char)) :
    spawnedJobs (afterCompletedRun fsPresent urls) urls false = [] ∧
    (∀ url ∈ urls, derivedFilename url ∈ fsPresent →
      url ∉ spawnedJobs fsPresent urls false) := by
  constructor
  · rw [spawnedJobs, List.filterMap_eq_nil_iff]
    intro url hu
    have hmem : derivedFilename url ∈ afterCompletedRun fsPresent urls := by
      by_cases hf : derivedFilename url ∈ fsPresent
      · exact List.mem_append_left _ hf
      · exact List.mem_append_right _
          (List.mem_map_of_mem derivedFilename
            (mem_spawnedJobs_of_absent fsPresent urls url hu hf))
    rw [if_pos ⟨hmem, rfl⟩]
  · intro url hu hmem hcontra
    obtain ⟨a, _, hfa⟩ := List.mem_filterMap.mp hcontra
    by_cases hc : derivedFilename a ∈ fsPresent ∧ (false : Bool) = false
    · rw [if_pos hc] at hfa
      exact Option.noConfusion hfa
    · rw [if_neg hc] at hfa
      obtain rfl := Option.some.inj hfa
      exact hc ⟨hmem, rfl⟩

/-- Witness for C4: with `a.bin` already present, the URL ending in `a.bin`
is skipped, and a completed run makes the second run spawn nothing. -/
theorem second_run_spawns_nothing_witness :
    spawnedJobs
        (afterCompletedRun ["a.bin".toList]
          ["http://h/a.bin".toList, "http://h/b.bin".toList])
        ["http://h/a.bin".toList, "http://h/b.bin".toList] false = [] ∧
    "http://h/a.bin".toList ∉
      spawnedJobs ["a.bin".toList]
        ["http://h/a.bin".toList, "http://h/b.bin".toList] false := by
  have h := second_run_spawns_nothing ["a.bin".toList]
    ["http://h/a.bin".toList, "http://h/b.bin".toList]
  exact ⟨h.1, h.2 "http://h/a.bin".toList (by decide) (by decide)⟩

/-! ## Concurrency gate (`download_models.py`, `download_semaphore` and
`download_file`)

    download_semaphore = asyncio.Semaphore(5)

    async def download_file(url, output_path, semaphore):
        async with semaphore:
            ...transfer...

Every job of every category is passed the same module-level semaphore, so
the session is modelled as the phase of each job plus the free slots of that
one gate; the scheduler may interleave job starts and finishes arbitrarily,
but a start must acquire a slot and a finish releases one. -/

/-- Phase of one fetch job relative to the semaphore-guarded transfer. -/
inductive JobPhase
  | pending
  | running
  | done
deriving DecidableEq

/-- A download session: the phase of every job across all categories, plus
the free slots of the shared `download_semaphore`. -/
structure SessionState where
  jobs : List JobPhase
  avail : Nat
deriving DecidableEq

/-- Number of jobs currently inside their `async with semaphore` body. -/
def runningCount (s : SessionState) : Nat :=
  s.jobs.countP (fun p => p == JobPhase.running)

/-- Session start: every planned job pending, `asyncio.Semaphore(5)` full. -/
def initSession (n : Nat) : SessionState := ⟨List.replicate n .pending, 5⟩

/-- Scheduler steps: a pending job starts its transfer only by acquiring a
free slot of the gate; a running job finishing releases its slot. -/
inductive SessionStep : SessionState → SessionState → Prop
  | start (s : SessionState) (i : Nat) (h1 : s.jobs.get? i = some .pending)
      (h2 : 0 < s.avail) :
      SessionStep s ⟨s.jobs.set i .running, s.avail - 1⟩
  | finish (s : SessionState) (i : Nat) (h1 : s.jobs.get? i = some .running) :
      SessionStep s ⟨s.jobs.set i .done, s.avail + 1⟩

/-- States reachable in a session of `n` planned jobs. -/
inductive SessionReachable (n : Nat) : SessionState → Prop
  | init : SessionReachable n (initSession n)
  | step {s t : SessionState} :
      SessionReachable n s → SessionStep s t → SessionReachable n t

theorem countP_set_of_get (p : JobPhase → Bool) :
    ∀ (l : List JobPhase) (i : Nat) (a b : JobPhase), l.get? i = some a →
      (l.set i b).countP p + (if p a then 1 else 0) =
        l.countP p + (if p b then 1 else 0)
  | [], i, _, _, h => by cases h
  | x :: t, 0, a, b, h => by
    obtain rfl : x = a := by simpa using h
    simp only [List.set_cons_zero, List.countP_cons]
    omega
  | x :: t, i + 1, a, b, h => by
    have ih := countP_set_of_get p t i a b (by simpa using h)
    simp only [List.set_cons_succ, List.countP_cons]
    omega

/-- Invariant: the free slots plus the running jobs always total the gate's
capacity 5. -/
theorem session_slots_invariant (n : Nat) (s : SessionState)
    (h : SessionReachable n s) : s.avail + runningCount s = 5 := by
  induction h with
  | init =>
    have : (List.replicate n JobPhase.pending).countP
        (fun p => p == JobPhase.running) = 0 :=
      List.countP_eq_zero.mpr (fun a ha => by
        simp [List.eq_of_mem_replicate ha])
    simp [initSession, runningCount, this]
  | step hr hs ih =>
    cases hs with
    | start i h1 h2 =>
      have hc := countP_set_of_get (fun p => p == JobPhase.running)
        _ i .pending .running h1
      simp only [runningCount] at *
      simp at hc
      omega
    | finish i h1 =>
      have hc := countP_set_of_get (fun p => p == JobPhase.running)
        _ i .running .done h1
      simp only [runningCount] at *
      simp at hc
      omega

/-- C5: in every reachable state of a session, however many categories and
jobs were planned, at most 5 fetch jobs are running simultaneously. -/
theorem concurrent_fetches_bounded (n : Nat) (s : SessionState)
    (h : SessionReachable n s) : runningCount s ≤ 5 := by
  have := session_slots_invariant n s h
  omega

/-- Witness for C5 at the initial state of a 10-job session. -/
theorem concurrent_fetches_bounded_witness :
    runningCount (initSession 10) ≤ 5 :=
  concurrent_fetches_bounded 10 (initSession 10) SessionReachable.init

/-! ## Configuration retrieval (`download_models.py`, `get_config_async` and
`main`)

    try:
        ...fetch or read, then parse JSON...
    except Exception as e:
        logger.error(f"Failed to load config from ...: {e}")
        return None

    config = await get_config_async(config_path)
    if not config:
        logger.error("Failed to get configuration, exiting.")
        return
-/

/-- Outcome of the environment when the configuration source is fetched and
parsed: either a configuration mapping category names to URL lists, or an
exception (unreachable URL, non-JSON body, unreadable file). -/
inductive ConfigFetch
  | ok (cfg : List (String × List (List Char)))
  | fetchError (msg : String)

/-- `get_config_async`: the parsed configuration, or `none` when the fetch
or parse raised; paired with the number of `logger.error` lines it emits. -/
def get_config_async :
    ConfigFetch → Option (List (String × List (List Char))) × Nat
  | .ok cfg => (some cfg, 0)
  | .fetchError _ => (none, 1)

/-- Result of one orchestrator session: the fetch jobs spawned (as their
URLs) and the number of `logger.error` lines emitted before any job ran. -/
structure SessionOutcome where
  jobs : List (List Char)
  errors : Nat
deriving DecidableEq

/-- The configuration-driven part of `main`: fetch the configuration; when
it is `None` — or empty, since `if not config:` is also true of an empty
dict — log one more error and return with no jobs; otherwise expand every
category through the planning loop. `fsPresent` gives the files already
present in each category's destination directory. -/
def mainSession (fetch : ConfigFetch) (fsPresent : String → List (List Char))
    (force : Bool) : SessionOutcome :=
  match get_config_async fetch with
  | (none, e) => ⟨[], e + 1⟩
  | (some cfg, e) =>
    if cfg.isEmpty then ⟨[], e + 1⟩
    else ⟨cfg.foldl (fun acc c => acc ++ spawnedJobs (fsPresent c.1) c.2 force) [], e⟩

/-- Counterexample to C8 as stated: on a failing configuration fetch the
session does abort with zero jobs, but the condition is reported twice —
`get_config_async` logs `Failed to load config ...` and `main` logs
`Failed to get configuration, exiting.` — so the error count is 2, not the
single error the claim requires. -/
theorem config_failure_two_error_lines :
    (mainSession (.fetchError "unreachable") (fun _ => []) false).jobs = [] ∧
    (mainSession (.fetchError "unreachable") (fun _ => []) false).errors = 2 ∧
    (mainSession (.fetchError "unreachable") (fun _ => []) false).errors ≠ 1 :=
  ⟨rfl, rfl, by decide⟩

/-- C8 amended: for every failing configuration source the session aborts
before any fetch job is spawned (zero jobs are created), and the failure is
reported as exactly two error log lines — one from the config loader naming
the source and exception, one from the session abort. -/
theorem config_failure_aborts_before_jobs (msg : String)
    (fsPresent : String → List (List Char)) (force : Bool) :
    (mainSession (.fetchError msg) fsPresent force).jobs = [] ∧
    (mainSession (.fetchError msg) fsPresent force).errors = 2 :=
  ⟨rfl, rfl⟩

/-! ## Log rendering (`utils/formatLogLine.py` and `utils/getCurrentLogs.py`)

`format_log_line` extracts a leading `[...]` timestamp with
`re.search(r"^\[([\d\-\s:]+)\]", line)` (synthesizing one from
`datetime.now()` otherwise), classifies severity by keyword search, escapes
the content with `html.escape`, and wraps it in timestamp/severity spans.
`get_current_logs` renders the buffer under the lock, prefixed by a header
line stating the entry count, skipping lines equal to the previously
rendered one. Wall-clock time is injected as the `now` parameter; the log
lines involved are ASCII, so the `\d`/`\s` character classes and
`str.strip` are modelled over ASCII. -/

/-- ASCII whitespace, as in Python `\s` and `str.strip`. -/
def isPySpace (c : Char) : Bool :=
  c = Char.ofNat 32 || c = Char.ofNat 9 || c = Char.ofNat 10 ||
    c = Char.ofNat 13 || c = Char.ofNat 11 || c = Char.ofNat 12

/-- The timestamp character class `[\d\-\s:]`. -/
def isTsChar (c : Char) : Bool :=
  c.isDigit || c = Char.ofNat 45 || isPySpace c || c = Char.ofNat 58

/-- `re.search(r"^\[([\d\-\s:]+)\]", line)`: a leading `[`, one or more
timestamp characters (greedy — and since `]` is outside the class, no
shorter backtracked match can succeed), then `]`. Returns the captured
timestamp and the remainder of the line. -/
def matchTimestamp (line : List Char) : Option (List Char × List Char) :=
  match line with
  | [] => none
  | c :: rest =>
    if c = Char.ofNat 91 then
      let ts := rest.takeWhile isTsChar
      if ts.isEmpty then none
      else
        match rest.dropWhile isTsChar with
        | d :: tail => if d = Char.ofNat 93 then some (ts, tail) else none
        | [] => none
    else none

/-- `str.strip()` over ASCII whitespace. -/
def pyStrip (s : List Char) : List Char :=
  ((s.dropWhile isPySpace).reverse.dropWhile isPySpace).reverse

/-- `re.search(pat, content, re.IGNORECASE)` for a literal pattern:
case-insensitive substring search. -/
def lcSearch (content : List Char) (pat : List Char) : Bool :=
  (List.range (content.length + 1)).any
    (fun i => pat.isPrefixOf ((content.map Char.toLower).drop i))

/-- Severity classification of `format_log_line`:
`error|exception|fail|critical` gives `log-error`, otherwise
`warn|caution` gives `log-warning`, otherwise `log-info`. -/
def cssClass (content : List Char) : String :=
  if lcSearch content "error".toList || lcSearch content "exception".toList
      || lcSearch content "fail".toList || lcSearch content "critical".toList then
    "log-error"
  else if lcSearch content "warn".toList || lcSearch content "caution".toList then
    "log-warning"
  else "log-info"

/-- `html.escape` with its default quoting of both quote characters. -/
def escapeChar (c : Char) : List Char :=
  if c = Char.ofNat 38 then "&amp;".toList
  else if c = Char.ofNat 60 then "&lt;".toList
  else if c = Char.ofNat 62 then "&gt;".toList
  else if c = Char.ofNat 34 then "&quot;".toList
  else if c = Char.ofNat 39 then "&#x27;".toList
  else [c]

/-- `html.escape(content)`. -/
def htmlEscape (s : List Char) : String := String.mk (s.map escapeChar).flatten

/-- The single-quote character the emitted HTML uses around attribute
values. -/
def sq : String := String.singleton (Char.ofNat 39)

/-- `<span class='cls'>` -/
def spanOpen (cls : String) : String := "<span class=" ++ sq ++ cls ++ sq ++ ">"

/-- `<div class='cls'>` -/
def divOpen (cls : String) : String := "<div class=" ++ sq ++ cls ++ sq ++ ">"

/-- `format_log_line(line, ws)`: timestamp extraction or synthesis,
severity markup and HTML escaping; `ws=True` omits the wrapping div. -/
def format_log_line (now : String) (line : String) (ws : Bool) : String :=
  let tsc := matchTimestamp line.toList
  let timestamp :=
    match tsc with
    | some (ts, _) => String.mk ts
    | none => now
  let content :=
    match tsc with
    | some (_, rest) => pyStrip rest
    | none => line.toList
  let inner := spanOpen "log-timestamp" ++ timestamp ++ "</span>" ++
    spanOpen (cssClass content) ++ htmlEscape content ++ "</span>"
  if ws then inner else divOpen "log-line" ++ inner ++ "</div>"

/-- The synthetic header of `get_current_logs`, stating the entry count of
the buffer at snapshot time. -/
def logsHeader (now : String) (n : Nat) : String :=
  divOpen "log-line" ++ spanOpen "log-timestamp" ++ now ++ "</span>" ++
    spanOpen "log-info" ++ "Dashboard - Last " ++ toString n ++
    " lines</span></div>\n"

/-- The rendering loop of `get_current_logs`: format each buffered line,
skipping a line equal to the one just handled (`prev_line` starts as
`None`, which no string equals). -/
def renderLogs (now : String) : Option String → List String → List String
  | _, [] => []
  | prev, l :: rest =>
    if some l ≠ prev then
      format_log_line now l false :: renderLogs now (some l) rest
    else renderLogs now (some l) rest

/-- `get_current_logs()`: the header plus the newline-joined rendered
buffer, or a `No logs yet.` line when the buffer is empty. -/
def get_current_logs (now : String) (buf : List String) : String :=
  let header := logsHeader now buf.length
  if ¬ buf.isEmpty then
    header ++ String.intercalate "\n" (renderLogs now none buf)
  else
    header ++ divOpen "log-line" ++ spanOpen "log-info" ++ "No logs yet.</span></div>"

/-- The snapshot order the design describes: insertion order with runs of
consecutive identical raw lines collapsed to their first entry. -/
def collapseConsecutive : List String → List String
  | [] => []
  | [a] => [a]
  | a :: b :: rest =>
    if a = b then collapseConsecutive (b :: rest)
    else a :: collapseConsecutive (b :: rest)

theorem collapseConsecutive_cons_self (b : String) (r : List String) :
    collapseConsecutive (b :: b :: r) = collapseConsecutive (b :: r) := by
  simp [collapseConsecutive]

theorem collapseConsecutive_cons_ne (a b : String) (r : List String)
    (h : a ≠ b) :
    collapseConsecutive (a :: b :: r) = a :: collapseConsecutive (b :: r) := by
  simp only [collapseConsecutive]
  rw [if_neg h]

/-- A collapsed non-empty list starts with the head of the original list. -/
theorem collapseConsecutive_head (b : String) (r : List String) :
    collapseConsecutive (b :: r) = b :: (collapseConsecutive (b :: r)).tail := by
  induction r generalizing b with
  | nil => rfl
  | cons c r ih =>
    by_cases h : b = c
    · subst h
      rw [collapseConsecutive_cons_self]
      exact ih b
    · rw [collapseConsecutive_cons_ne b c r h]
      rfl

/-- The rendering loop with `prev = some l` renders exactly the collapsed
continuation of a list headed by `l`. -/
theorem renderLogs_some (now : String) :
    ∀ (rest : List String) (l : String),
      renderLogs now (some l) rest =
        (collapseConsecutive (l :: rest)).tail.map
          (fun s => format_log_line now s false)
  | [], _ => rfl
  | b :: r, l => by
    by_cases h : l = b
    · subst h
      have h1 : renderLogs now (some l) (l :: r) = renderLogs now (some l) r := by
        simp [renderLogs]
      rw [h1, renderLogs_some now r l, collapseConsecutive_cons_self]
    · have h1 : renderLogs now (some l) (b :: r) =
          format_log_line now b false :: renderLogs now (some b) r := by
        simp [renderLogs, Ne.symm h]
      rw [h1, renderLogs_some now r b, collapseConsecutive_cons_ne l b r h]
      conv_rhs => rw [collapseConsecutive_head b r]
      simp

/-- The source's rendering loop computes the map of `format_log_line` over
the collapsed buffer. -/
theorem renderLogs_eq_collapsed (now : String) (buf : List String) :
    renderLogs now none buf =
      (collapseConsecutive buf).map (fun s => format_log_line now s false) := by
  cases buf with
  | nil => rfl
  | cons l rest =>
    have h1 : renderLogs now none (l :: rest) =
        format_log_line now l false :: renderLogs now (some l) rest := by
      simp [renderLogs]
    rw [h1, renderLogs_some now rest l]
    conv_rhs => rw [collapseConsecutive_head l rest]
    simp

/-- C9: for every non-empty buffer the snapshot is the synthetic header
stating the buffer's entry count, followed by the buffered lines in
insertion order with consecutive identical raw lines collapsed to one
rendered entry; in particular a buffer fed `"a"`, `"a"`, `"b"` renders the
entries of `["a", "b"]`. -/
theorem snapshot_collapses_consecutive (now : String) (buf : List String) :
    (¬ buf.isEmpty →
      get_current_logs now buf =
        logsHeader now buf.length ++
          String.intercalate "\n"
            ((collapseConsecutive buf).map (fun s => format_log_line now s false))) ∧
    collapseConsecutive ["a", "a", "b"] = ["a", "b"] := by
  constructor
  · intro h
    simp only [get_current_logs]
    rw [if_pos h, renderLogs_eq_collapsed]
  · decide

/-- Witness for C9 on the buffer fed `"a"`, `"a"`, `"b"`. -/
theorem snapshot_collapses_consecutive_witness :
    get_current_logs "t" ["a", "a", "b"] =
      logsHeader "t" (["a", "a", "b"] : List String).length ++
        String.intercalate "\n"
          ((collapseConsecutive ["a", "a", "b"]).map
            (fun s => format_log_line "t" s false)) ∧
    collapseConsecutive ["a", "a", "b"] = ["a", "b"] := by
  have h := snapshot_collapses_consecutive "t" ["a", "a", "b"]
  exact ⟨h.1 (by decide), h.2⟩

/-! ## Download endpoint (`log_viewer.py`, `download`)

    if not request.url:
        raise HTTPException(status_code=400, detail="URL is required")
    if url_type == "civitai":
        task = asyncio.create_task(...)
    elif url_type == "huggingface":
        task = asyncio.create_task(...)
    elif url_type == "googledrive":
        task = asyncio.create_task(...)
    background_tasks.add_task(lambda: task)
-/

/-- Observable outcome of the `/download/{url_type}` handler body. -/
inductive DownloadOutcome
  | badRequest
  | taskAssigned (source : String)
  | unboundTask
deriving DecidableEq

/-- The handler: reject an empty URL with 400; assign the background task
variable in the `civitai`, `huggingface` and `googledrive` branches; any
other value falls through to `background_tasks.add_task(lambda: task)` with
`task` never assigned. -/
def download_handler (url : String) (urlType : String) : DownloadOutcome :=
  if url = "" then .badRequest
  else if urlType = "civitai" then .taskAssigned "civitai"
  else if urlType = "huggingface" then .taskAssigned "huggingface"
  else if urlType = "googledrive" then .taskAssigned "googledrive"
  else .unboundTask

/-- C10: the background-task variable is assigned exactly in the three
recognized branches; every non-empty-URL request with any other `url_type`
reaches the handler's final statement with `task` unassigned (the deferred
lambda raises `NameError` when the background task runs), so the unbound
reference is avoided only when `url_type` is one of the three values. -/
theorem download_task_only_assigned_for_known_sources (url urlType : String) :
    (url ≠ "" →
      (urlType = "civitai" ∨ urlType = "huggingface" ∨ urlType = "googledrive") →
      download_handler url urlType = .taskAssigned urlType) ∧
    (url ≠ "" → urlType ≠ "civitai" → urlType ≠ "huggingface" →
      urlType ≠ "googledrive" → download_handler url urlType = .unboundTask) := by
  constructor
  · intro hu ht
    rcases ht with h | h | h <;> subst h <;> simp [download_handler, hu]
  · intro hu h1 h2 h3
    simp [download_handler, hu, h1, h2, h3]

/-- Witness for C10: a recognized and an unrecognized `url_type`. -/
theorem download_task_only_assigned_for_known_sources_witness :
    download_handler "http://x" "civitai" = .taskAssigned "civitai" ∧
    download_handler "http://x" "direct" = .unboundTask := by
  have h1 := download_task_only_assigned_for_known_sources "http://x" "civitai"
  have h2 := download_task_only_assigned_for_known_sources "http://x" "direct"
  exact ⟨h1.1 (by decide) (Or.inl rfl),
    h2.2 (by decide) (by decide) (by decide) (by decide)⟩

end ComfyDash
